import Mathlib

/-!
Shallow embedding of the aggregation/filtering core of `src/app.py`
(a Streamlit EDA dashboard over railroad grade-crossing accident records).

Records model one row of the loaded dataframe after `load_data`'s typing
cleanup: nullable integer columns become `Option Int`, the `Weekday`
categorical (categories Mon..Sun, anything else coerced to missing) becomes
`Option Weekday`, and the two casualty columns are modelled by the value
`pd.to_numeric(..., errors="coerce")` produces: a number or missing, so a
non-numeric raw cell is already `none` here.  Values in the data are
integral, so sums are over `Int` and pandas' `.round()` is the identity.
-/

/-- The seven weekday categories of the `Weekday` ordered categorical
(`load_data`, `weekday_order`). -/
inductive Weekday where
  | mon | tue | wed | thu | fri | sat | sun
deriving DecidableEq, Repr

/-- One row of the loaded dataframe (`load_data`).  `killed` and `injured`
are the columns "Total Killed Form 57" / "Total Injured Form 57" as seen
through `pd.to_numeric(..., errors="coerce")`: non-numeric or absent cells
are `none`. -/
structure Record where
  year : Option Int
  hour24 : Option Int
  weekday : Option Weekday
  state_code : Option Int
  state_name : Option String
  state_usps : Option String
  killed : Option Int
  injured : Option Int
deriving DecidableEq, Repr

/-- `FIPS_TO_USPS` (app.py lines 13-19): numeric state code -> USPS
abbreviation. -/
def FIPS_TO_USPS : Int → Option String
  | 1 => some "AL" | 2 => some "AK" | 4 => some "AZ" | 5 => some "AR"
  | 6 => some "CA" | 8 => some "CO" | 9 => some "CT" | 10 => some "DE"
  | 11 => some "DC" | 12 => some "FL" | 13 => some "GA" | 15 => some "HI"
  | 16 => some "ID" | 17 => some "IL" | 18 => some "IN" | 19 => some "IA"
  | 20 => some "KS" | 21 => some "KY" | 22 => some "LA" | 23 => some "ME"
  | 24 => some "MD" | 25 => some "MA" | 26 => some "MI" | 27 => some "MN"
  | 28 => some "MS" | 29 => some "MO" | 30 => some "MT" | 31 => some "NE"
  | 32 => some "NV" | 33 => some "NH" | 34 => some "NJ" | 35 => some "NM"
  | 36 => some "NY" | 37 => some "NC" | 38 => some "ND" | 39 => some "OH"
  | 40 => some "OK" | 41 => some "OR" | 42 => some "PA" | 44 => some "RI"
  | 45 => some "SC" | 46 => some "SD" | 47 => some "TN" | 48 => some "TX"
  | 49 => some "UT" | 50 => some "VT" | 51 => some "VA" | 53 => some "WA"
  | 54 => some "WV" | 55 => some "WI" | 56 => some "WY"
  | _ => none

/-- The 51 abbreviations (values of `FIPS_TO_USPS`, in table order). -/
def uspsValues : List String :=
  ["AL","AK","AZ","AR","CA","CO","CT","DE","DC","FL","GA","HI","ID","IL",
   "IN","IA","KS","KY","LA","ME","MD","MA","MI","MN","MS","MO","MT","NE",
   "NV","NH","NJ","NM","NY","NC","ND","OH","OK","OR","PA","RI","SC","SD",
   "TN","TX","UT","VT","VA","WA","WV","WI","WY"]

/-- The `State USPS` derivation of `load_data` (lines 74-76):
`FIPS_TO_USPS.get(int(x)) if pd.notna(x) else None`. -/
def loadUSPS (state_code : Option Int) : Option String :=
  state_code.bind FIPS_TO_USPS

/-- The year-range filter `df[df["Year"].between(y0, y1)]`
(app.py lines 90-91 and 271): inclusive on both ends; a missing `Year`
gives a missing comparison result, which boolean indexing treats as
`False`, so rows with absent year are dropped. -/
def filterYear (records : List Record) (y0 y1 : Int) : List Record :=
  records.filter (fun r =>
    match r.year with
    | some y => decide (y0 ≤ y) && decide (y ≤ y1)
    | none => false)

/-- Per-row metric value of `metric_series` (app.py lines 106-120):
`Incidents` -> 1; `Killed`/`Injured` -> the coerced casualty column with
missing filled by 0 (`fillna(0)`); any other selector falls through to a
constant 1 series.  The `_val` assignment of `plot_weekday_hour_heatmap`
(lines 142-149) computes the same per-row value. -/
def metricVal (metric : String) (r : Record) : Int :=
  if metric = "Incidents" then 1
  else if metric = "Killed" then r.killed.getD 0
  else if metric = "Injured" then r.injured.getD 0
  else 1

/-- Pandas `Series.sum(min_count=1)` over an `Option`-valued column:
missing entries are skipped, and if no entry is present at all the result
is itself missing (`NaN`) rather than 0. -/
def sumMinCount1 (vals : List (Option Int)) : Option Int :=
  let present := vals.filterMap id
  if present.isEmpty then none else some present.sum

/-- `make_state_metric` (app.py lines 80-103).  Filters the full record
set by year range only, groups by `State USPS` (pandas drops rows whose
group key is missing), and produces per-state totals:
size for `Incidents`, `sum(min_count=1)` of the casualty column for
`Killed`/`Injured`, and `raise ValueError("Unknown metric")` otherwise.
Line 102 then coerces the value column and fills missing with 0
(`.fillna(0).round().astype("int64")`), which maps the `min_count=1`
all-missing marker back to 0.  The result is a mapping from state
abbreviation to total; pandas sorts group keys, which only permutes the
association list and is immaterial to lookups. -/
def make_state_metric (records : List Record) (y0 y1 : Int) (metric : String) :
    Except String (List (String × Int)) :=
  let base := filterYear records y0 y1
  let keys := (base.filterMap (fun r => r.state_usps)).dedup
  let group := fun s => base.filter (fun r => r.state_usps = some s)
  let raw : Option (List (String × Option Int)) :=
    if metric = "Incidents" then
      some (keys.map (fun s => (s, some ((group s).length : Int))))
    else if metric = "Killed" then
      some (keys.map (fun s => (s, sumMinCount1 ((group s).map (fun r => r.killed)))))
    else if metric = "Injured" then
      some (keys.map (fun s => (s, sumMinCount1 ((group s).map (fun r => r.injured)))))
    else none
  match raw with
  | none => .error "Unknown metric"
  | some out => .ok (out.map (fun p => (p.1, p.2.getD 0)))

/-- The fixed weekday row order of the heatmap and of the weekday bar
chart (`weekday_order`, lines 64 and 132). -/
def weekdayOrder : List Weekday :=
  [.mon, .tue, .wed, .thu, .fri, .sat, .sun]

/-- One cell of the Weekday×Hour grouping of `plot_weekday_hour_heatmap`
(lines 139-156): rows missing either `Weekday` or `Hour24` are dropped
(`dropna(subset=["Weekday", "Hour24"])`), rows are grouped by the pair and
the per-row `_val` is summed; a pair with no rows gets 0 via
`unstack(fill_value=0)` / `reindex(..., fill_value=0)`, which here is the
empty sum. -/
def heatCell (records : List Record) (metric : String) (d : Weekday) (h : Int) : Int :=
  ((records.filter (fun r =>
      decide (r.weekday = some d) && decide (r.hour24 = some h))).map
    (metricVal metric)).sum

/-- The dense 7×24 matrix `heat` of `plot_weekday_hour_heatmap`
(lines 132-158): rows reindexed to Mon..Sun, columns to 0..23.  The
`df.empty` short-circuit (lines 136-137) returns the all-zero matrix,
which is what the grouped branch also yields on an empty input, so the
grouped formula covers both branches. -/
def weekdayHourHeatmap (records : List Record) (metric : String) : List (List Int) :=
  weekdayOrder.map (fun d =>
    (List.range 24).map (fun (h : Nat) => heatCell records metric d (h : Int)))

/-- The Weekdays branch (app.py lines 303-308): drop rows with missing
`Weekday`, sum `metric_series` per weekday; because `Weekday` is a
categorical with the seven fixed categories, the groupby emits every
category (an empty group sums to 0) and the `reindex` fixes the Mon..Sun
order, so the result is the dense ordered 7-entry series. -/
def weekdayTotals (records : List Record) (metric : String) : List (Weekday × Int) :=
  weekdayOrder.map (fun d =>
    (d, ((records.filter (fun r => r.weekday = some d)).map (metricVal metric)).sum))

/-- The state-subset filter applied to the year-filtered frame
(`df_f`, lines 272-273, and the Top States branch, lines 313-314): when
the selection is non-empty keep rows whose `State USPS` is a member
(`isin`; a missing abbreviation is not a member), otherwise keep all. -/
def filterStates (records : List Record) (picked : List String) : List Record :=
  if picked.isEmpty then records
  else records.filter (fun r =>
    match r.state_usps with
    | some s => picked.contains s
    | none => false)

/-- Insertion of one keyed pair into a list sorted by non-increasing
total; models one step of `sort_values(ascending=False)`. -/
def insertDesc (p : String × Int) : List (String × Int) → List (String × Int)
  | [] => [p]
  | q :: qs => if q.2 ≤ p.2 then p :: q :: qs else q :: insertDesc p qs

/-- `sort_values(ascending=False)` on an association list of totals:
sorts by non-increasing total (the relative order of ties is not
documented by pandas' default quicksort and is not relied upon). -/
def sortDesc : List (String × Int) → List (String × Int)
  | [] => []
  | p :: ps => insertDesc p (sortDesc ps)

/-- The Top States branch (app.py lines 310-324): filter the full frame
by year range, then by the state subset when one is picked; attach the
per-row `metric_series` value; group by `State Name` (rows with a missing
name are dropped by pandas' groupby); sum per group; sort totals
descending; keep the first `n`.  `.round().astype(int)` is the identity
on these integer totals. -/
def topStates (records : List Record) (y0 y1 : Int) (picked : List String)
    (metric : String) (n : Nat) : List (String × Int) :=
  let base := filterStates (filterYear records y0 y1) picked
  let names := (base.filterMap (fun r => r.state_name)).dedup
  let totals := names.map (fun nm =>
    (nm, ((base.filter (fun r => r.state_name = some nm)).map (metricVal metric)).sum))
  (sortDesc totals).take n

/-- The choropleth display table of `choropleth_selected_highlight`
(app.py lines 185-200): the 51-state universe is left-merged against
`make_state_metric` of the full record set (a state absent from the
sparse totals gets a missing value), and, when some states are picked,
the value of every unpicked state is blanked to missing. -/
def choroplethTable (records : List Record) (picked : List String)
    (y0 y1 : Int) (metric : String) :
    Except String (List (String × Option Int)) :=
  match make_state_metric records y0 y1 metric with
  | .error e => .error e
  | .ok mt =>
    let merged := uspsValues.map (fun s => (s, mt.lookup s))
    .ok (if picked.isEmpty then merged
         else merged.map (fun p => if picked.contains p.1 then p else (p.1, none)))

/-! Concrete records, used to evaluate the development on small inputs
(they mirror the three-record example of the specification's §8). -/

/-- (year=2019, weekday=Mon, hour=5, state=CA, killed=1). -/
def rec0 : Record :=
  ⟨some 2019, some 5, some .mon, some 6, some "California", some "CA", some 1, none⟩

/-- (year=2019, weekday=Mon, hour=5, state=CA, killed=0, injured=2). -/
def rec1 : Record :=
  ⟨some 2019, some 5, some .mon, some 6, some "California", some "CA", some 0, some 2⟩

/-- (year=2020, weekday=Tue, hour=10, state=TX, killed=2). -/
def rec2 : Record :=
  ⟨some 2020, some 10, some .tue, some 48, some "Texas", some "TX", some 2, none⟩

/-- A CA record whose `killed` cell is absent. -/
def cr0 : Record :=
  ⟨some 2019, none, none, some 6, some "California", some "CA", none, none⟩

/-- A TX record whose `killed` cell is present and zero. -/
def cr1 : Record :=
  ⟨some 2019, none, none, some 48, some "Texas", some "TX", some 0, none⟩

/-- `cr0` with the absent `killed` replaced by an explicit zero. -/
def cr2 : Record :=
  ⟨some 2019, none, none, some 6, some "California", some "CA", some 0, none⟩

/-! Generic list helpers shared by the theorems below. -/

theorem sum_map_add {α : Type} (l : List α) (f g : α → Int) :
    (l.map (fun x => f x + g x)).sum = (l.map f).sum + (l.map g).sum := by
  induction l with
  | nil => simp
  | cons a l ih => simp [ih]; ring

/-! ### C1: the year-range filter -/

/-- C1: the year filter keeps exactly the records whose year is present and
lies in `[y0, y1]` (records with absent year are excluded); when `y0 > y1`
the result is empty and no exception is raised (the filter is total). -/
theorem filterYear_spec (records : List Record) (y0 y1 : Int) :
    (∀ r : Record, r ∈ filterYear records y0 y1 ↔
      r ∈ records ∧ ∃ y, r.year = some y ∧ y0 ≤ y ∧ y ≤ y1) ∧
    (y1 < y0 → filterYear records y0 y1 = []) := by
  constructor
  · intro r
    simp only [filterYear, List.mem_filter]
    constructor
    · rintro ⟨hm, hp⟩
      refine ⟨hm, ?_⟩
      cases hy : r.year with
      | none => rw [hy] at hp; simp at hp
      | some y =>
        rw [hy] at hp
        simp only [Bool.and_eq_true, decide_eq_true_eq] at hp
        exact ⟨y, rfl, hp.1, hp.2⟩
    · rintro ⟨hm, y, hy, h0, h1⟩
      refine ⟨hm, ?_⟩
      rw [hy]
      simp only [Bool.and_eq_true, decide_eq_true_eq]
      exact ⟨h0, h1⟩
  · intro hlt
    apply List.filter_eq_nil_iff.mpr
    intro r _
    cases hy : r.year with
    | none => simp
    | some y =>
      simp only [Bool.and_eq_true, decide_eq_true_eq, not_and]
      omega

/-- Witness for C1 at a concrete degenerate range. -/
theorem filterYear_spec_witness : filterYear [rec0] 2020 2019 = [] :=
  (filterYear_spec [rec0] 2020 2019).2 (by decide)

/-! ### C4: the Metric Resolver -/

/-- C4: per record, the metric value is 1 for `Incidents`, the value of
`killed`/`injured` for `Killed`/`Injured` when present, and 0 when the
cell is absent or non-numeric (coerced to missing) — never an error. -/
theorem metricVal_spec (r : Record) :
    metricVal "Incidents" r = 1 ∧
    (∀ k, r.killed = some k → metricVal "Killed" r = k) ∧
    (r.killed = none → metricVal "Killed" r = 0) ∧
    (∀ k, r.injured = some k → metricVal "Injured" r = k) ∧
    (r.injured = none → metricVal "Injured" r = 0) := by
  refine ⟨rfl, ?_, ?_, ?_, ?_⟩
  · intro k hk; simp [metricVal, hk]
  · intro hk; simp [metricVal, hk]
  · intro k hk; simp [metricVal, hk]
  · intro hk; simp [metricVal, hk]

/-- Witness for C4: a present `killed` cell and an absent `injured` cell
(`rec0`), plus an absent `killed` cell (`cr0`). -/
theorem metricVal_spec_witness :
    metricVal "Killed" rec0 = 1 ∧ metricVal "Injured" rec0 = 0 ∧
    metricVal "Killed" cr0 = 0 :=
  ⟨(metricVal_spec rec0).2.1 1 rfl, (metricVal_spec rec0).2.2.2.2 rfl,
   (metricVal_spec cr0).2.2.1 rfl⟩

/-! ### C8: the Weekday aggregator -/

/-- C8: the weekday totals always carry exactly the seven keys Mon..Sun in
that fixed order, independent of the records and their order; a weekday
with no contributing record is present with total 0 (also on empty
input). -/
theorem weekdayTotals_spec (records : List Record) (metric : String) :
    (weekdayTotals records metric).map Prod.fst = weekdayOrder ∧
    (∀ d : Weekday, (∀ r ∈ records, r.weekday ≠ some d) →
      (d, 0) ∈ weekdayTotals records metric) ∧
    weekdayTotals [] metric = weekdayOrder.map (fun d => (d, 0)) := by
  refine ⟨?_, ?_, ?_⟩
  · simp [weekdayTotals, List.map_map, Function.comp_def]
  · intro d hd
    have hmem : d ∈ weekdayOrder := by cases d <;> simp [weekdayOrder]
    have hfil : records.filter (fun r => r.weekday = some d) = [] := by
      apply List.filter_eq_nil_iff.mpr
      intro r hr
      simpa using hd r hr
    have : (d, ((records.filter (fun r => r.weekday = some d)).map
        (metricVal metric)).sum) ∈ weekdayTotals records metric :=
      List.mem_map_of_mem _ hmem
    rwa [hfil] at this
  · simp [weekdayTotals]

/-- Witness for C8 on the empty record set at Tuesday. -/
theorem weekdayTotals_spec_witness :
    (Weekday.tue, 0) ∈ weekdayTotals [] "Incidents" :=
  (weekdayTotals_spec [] "Incidents").2.1 Weekday.tue (by simp)

/-! ### C7, C9, C10: the State aggregator -/

/-- In every `ok` branch of `make_state_metric`, a key of the output is a
key of the grouping, i.e. a deduplicated present `State USPS` of the
year-filtered base. -/
theorem mem_keys_of_mem_out (keys : List String) (val : String → Option Int)
    (s : String) (v : Int)
    (h : (s, v) ∈ (keys.map (fun t => (t, val t))).map (fun p => (p.1, p.2.getD 0))) :
    s ∈ keys := by
  simp only [List.map_map, List.mem_map, Function.comp] at h
  obtain ⟨t, ht, he⟩ := h
  cases he
  exact ht

/-- C7: every state abbreviation present in the State Aggregator's output
has at least one contributing record in the year-filtered base; states
with no contributing record are absent, not present with 0. -/
theorem make_state_metric_no_empty_groups (records : List Record) (y0 y1 : Int)
    (metric : String) (out : List (String × Int))
    (hok : make_state_metric records y0 y1 metric = .ok out) :
    ∀ s v, (s, v) ∈ out →
      ∃ r ∈ filterYear records y0 y1, r.state_usps = some s := by
  intro s v hsv
  have hkeys : s ∈ ((filterYear records y0 y1).filterMap
      (fun r => r.state_usps)).dedup := by
    simp only [make_state_metric] at hok
    split at hok
    · exact Except.noConfusion hok
    · rename_i out' heq
      injection hok with hok
      subst hok
      split at heq
      · injection heq with heq; subst heq
        exact mem_keys_of_mem_out _ _ s v hsv
      · split at heq
        · injection heq with heq; subst heq
          exact mem_keys_of_mem_out _ _ s v hsv
        · split at heq
          · injection heq with heq; subst heq
            exact mem_keys_of_mem_out _ _ s v hsv
          · exact Option.noConfusion heq
  rw [List.mem_dedup, List.mem_filterMap] at hkeys
  exact hkeys

/-- Witness for C7 on the §8 example records. -/
theorem make_state_metric_no_empty_groups_witness :
    ∃ r ∈ filterYear [rec0, rec1, rec2] 2019 2019, r.state_usps = some "CA" :=
  make_state_metric_no_empty_groups [rec0, rec1, rec2] 2019 2019 "Killed"
    [("CA", 1)] (by rfl) "CA" 1 (by decide)

/-- A mapped FIPS code always lands in the 51-abbreviation universe. -/
theorem fips_mem_uspsValues (c : Int) (s : String)
    (h : FIPS_TO_USPS c = some s) : s ∈ uspsValues := by
  unfold FIPS_TO_USPS at h
  split at h <;>
    first
    | (injection h with h2; subst h2; decide)
    | exact Option.noConfusion h

/-- Present abbreviations survive the `isSome` row filter unchanged. -/
theorem filterMap_usps_filter_isSome (l : List Record) :
    (l.filter (fun r => r.state_usps.isSome)).filterMap (fun r => r.state_usps)
      = l.filterMap (fun r => r.state_usps) := by
  induction l with
  | nil => rfl
  | cons a l ih =>
    cases ha : a.state_usps <;>
      simp [List.filter_cons, List.filterMap_cons, ha, ih]

/-- Grouping on a present abbreviation ignores rows with a missing one. -/
theorem filter_usps_of_isSome (l : List Record) (s : String) :
    (l.filter (fun r => r.state_usps.isSome)).filter
        (fun r => r.state_usps = some s)
      = l.filter (fun r => r.state_usps = some s) := by
  rw [List.filter_filter]
  apply List.filter_congr
  intro r _
  cases h : r.state_usps <;> simp [h]

/-- Rows whose `State USPS` is missing contribute to no state group: the
State Aggregator's result is unchanged when they are removed up front. -/
theorem make_state_metric_ignores_missing_usps (records : List Record)
    (y0 y1 : Int) (metric : String) :
    make_state_metric records y0 y1 metric =
      make_state_metric (records.filter (fun r => r.state_usps.isSome)) y0 y1 metric := by
  have hbase : filterYear (records.filter (fun r => r.state_usps.isSome)) y0 y1
      = (filterYear records y0 y1).filter (fun r => r.state_usps.isSome) := by
    simp only [filterYear, List.filter_filter]
    apply List.filter_congr
    intro r _
    cases r.year <;> simp [Bool.and_comm]
  simp only [make_state_metric, hbase, filterMap_usps_filter_isSome,
    filter_usps_of_isSome]

/-- C10: over a record set produced by the loading step (where
`State USPS` is the FIPS lookup of the state code), every key of the State
Aggregator's output is one of the 51 fixed abbreviations; rows with an
absent or unmapped state code contribute to no key, yet such a row still
contributes its metric value to the weekday and weekday×hour
aggregations. -/
theorem state_totals_usps_universe (records : List Record) (y0 y1 : Int)
    (metric : String) (out : List (String × Int))
    (hload : ∀ r ∈ records, r.state_usps = loadUSPS r.state_code)
    (hok : make_state_metric records y0 y1 metric = .ok out) :
    (∀ s v, (s, v) ∈ out → s ∈ uspsValues) ∧
    make_state_metric records y0 y1 metric =
      make_state_metric (records.filter (fun r => r.state_usps.isSome)) y0 y1 metric ∧
    (∀ (r : Record) (l : List Record) (d : Weekday),
      r.state_usps = none → r.weekday = some d →
      (d, metricVal metric r +
          ((l.filter (fun x => x.weekday = some d)).map (metricVal metric)).sum)
        ∈ weekdayTotals (r :: l) metric) ∧
    (∀ (r : Record) (l : List Record) (d : Weekday) (h : Int),
      r.state_usps = none → r.weekday = some d → r.hour24 = some h →
      heatCell (r :: l) metric d h = metricVal metric r + heatCell l metric d h) := by
  refine ⟨?_, make_state_metric_ignores_missing_usps records y0 y1 metric, ?_, ?_⟩
  · intro s v hsv
    obtain ⟨r, hr, hus⟩ :=
      make_state_metric_no_empty_groups records y0 y1 metric out hok s v hsv
    have hrec : r ∈ records := List.mem_of_mem_filter hr
    have := hload r hrec
    rw [this] at hus
    cases hc : r.state_code with
    | none => rw [hc] at hus; exact Option.noConfusion hus
    | some c =>
      rw [hc] at hus
      exact fips_mem_uspsValues c s hus
  · intro r l d hus hwd
    have hmem : d ∈ weekdayOrder := by cases d <;> simp [weekdayOrder]
    have hfil : (r :: l).filter (fun x => x.weekday = some d)
        = r :: l.filter (fun x => x.weekday = some d) := by
      simp [List.filter_cons, hwd]
    have : (d, (((r :: l).filter (fun x => x.weekday = some d)).map
        (metricVal metric)).sum) ∈ weekdayTotals (r :: l) metric :=
      List.mem_map_of_mem _ hmem
    rwa [hfil, List.map_cons, List.sum_cons] at this
  · intro r l d h hus hwd hhr
    simp [heatCell, List.filter_cons, hwd, hhr]

/-- Witness for C10: a record with an unmapped state code (FIPS 3) beside
the §8 example records. -/
theorem state_totals_usps_universe_witness :
    "CA" ∈ uspsValues ∧
    heatCell [⟨some 2019, some 5, some .mon, some 3, none, none, some 1, none⟩, rec0]
        "Incidents" Weekday.mon 5
      = metricVal "Incidents"
          ⟨some 2019, some 5, some .mon, some 3, none, none, some 1, none⟩
        + heatCell [rec0] "Incidents" Weekday.mon 5 := by
  have h := state_totals_usps_universe
    [⟨some 2019, some 5, some .mon, some 3, none, none, some 1, none⟩, rec0]
    2019 2019 "Incidents" [("CA", 1)] (by decide) (by rfl)
  exact ⟨h.1 "CA" 1 (by decide),
    h.2.2.2 ⟨some 2019, some 5, some .mon, some 3, none, none, some 1, none⟩
      [rec0] Weekday.mon 5 rfl rfl rfl⟩

/-- C9 counterexample: `cr0` (CA, `killed` absent) and `cr2` (CA, `killed`
present and 0) produce the very same State Aggregator output next to `cr1`
(TX, `killed` 0): the group with no observation is reported as 0, exactly
like the group summing to zero, so the two are not distinguishable in the
output. -/
theorem state_nodata_counterexample :
    cr0.killed = none ∧ cr2.killed = some 0 ∧ cr1.killed = some 0 ∧
    make_state_metric [cr0, cr1] 2019 2019 "Killed" =
      make_state_metric [cr2, cr1] 2019 2019 "Killed" ∧
    make_state_metric [cr0, cr1] 2019 2019 "Killed" =
      .ok [("CA", 0), ("TX", 0)] :=
  ⟨rfl, rfl, rfl, rfl, rfl⟩

/-- C9 amended: the `min_count=1` group sum does mark an all-absent state
group as missing, but only before line 102's `fillna(0)`: in the final
output such a group is present with value 0, indistinguishable from a
group whose values sum to zero. -/
theorem state_nodata_amended (records : List Record) (y0 y1 : Int) (s : String)
    (hmem : ∃ r ∈ filterYear records y0 y1, r.state_usps = some s)
    (habs : ∀ r ∈ filterYear records y0 y1,
      r.state_usps = some s → r.killed = none) :
    sumMinCount1 (((filterYear records y0 y1).filter
        (fun r => r.state_usps = some s)).map (fun r => r.killed)) = none ∧
    ∃ out, make_state_metric records y0 y1 "Killed" = .ok out ∧ (s, 0) ∈ out := by
  have hnone : sumMinCount1 (((filterYear records y0 y1).filter
      (fun r => r.state_usps = some s)).map (fun r => r.killed)) = none := by
    have hpres : (((filterYear records y0 y1).filter
        (fun r => r.state_usps = some s)).map (fun r => r.killed)).filterMap id
        = [] := by
      rw [List.filterMap_map]
      apply List.filterMap_eq_nil_iff.mpr
      intro r hr
      rw [List.mem_filter] at hr
      exact habs r hr.1 (by simpa using hr.2)
    simp [sumMinCount1, hpres]
  refine ⟨hnone, ?_⟩
  obtain ⟨r, hr, hus⟩ := hmem
  have hs : s ∈ ((filterYear records y0 y1).filterMap
      (fun r => r.state_usps)).dedup :=
    List.mem_dedup.mpr (List.mem_filterMap.mpr ⟨r, hr, hus⟩)
  refine ⟨_, rfl, ?_⟩
  have h1 : (s, sumMinCount1 (((filterYear records y0 y1).filter
      (fun r => r.state_usps = some s)).map (fun r => r.killed)))
      ∈ (((filterYear records y0 y1).filterMap (fun r => r.state_usps)).dedup).map
        (fun t => (t, sumMinCount1 (((filterYear records y0 y1).filter
          (fun r => r.state_usps = some t)).map (fun r => r.killed)))) :=
    List.mem_map_of_mem _ hs
  have h2 := List.mem_map_of_mem
    (fun p : String × Option Int => (p.1, p.2.getD 0)) h1
  rwa [hnone] at h2

/-- Witness for the amended C9 at the concrete counterexample records. -/
theorem state_nodata_amended_witness :
    ∃ out, make_state_metric [cr0, cr1] 2019 2019 "Killed" = .ok out ∧
      ("CA", 0) ∈ out :=
  (state_nodata_amended [cr0, cr1] 2019 2019 "CA"
    ⟨cr0, by decide, by decide⟩ (by decide)).2

/-! ### C5: behaviour on an unrecognized metric selector -/

/-- C5 counterexample: at the concrete unknown selector "Fatalities", the
per-row metric resolution used by the weekday, top-N and weekday×hour
aggregators does not fail: it silently yields the `Incidents` behaviour
(constant 1), so not every call site signals an invalid metric. -/
theorem invalid_metric_counterexample :
    metricVal "Fatalities" rec0 = 1 ∧
    metricVal "Fatalities" rec0 = metricVal "Incidents" rec0 ∧
    weekdayHourHeatmap [rec0] "Fatalities" =
      weekdayHourHeatmap [rec0] "Incidents" :=
  ⟨rfl, rfl, rfl⟩

/-- C5 amended: only `make_state_metric` fails on an unknown metric
selector (`ValueError("Unknown metric")`); the per-row metric series used
by the weekday and top-N aggregators and the weekday×hour aggregator
silently default to the `Incidents` contribution of 1 per row. -/
theorem invalid_metric_amended (records : List Record) (y0 y1 : Int)
    (metric : String) (r : Record)
    (h : metric ∉ (["Incidents", "Killed", "Injured"] : List String)) :
    make_state_metric records y0 y1 metric = .error "Unknown metric" ∧
    metricVal metric r = 1 := by
  simp only [List.mem_cons, List.not_mem_nil, or_false, not_or] at h
  obtain ⟨h1, h2, h3⟩ := h
  constructor
  · simp [make_state_metric, h1, h2, h3]
  · simp [metricVal, h1, h2, h3]

/-- Witness for the amended C5 at the selector "Fatalities". -/
theorem invalid_metric_amended_witness :
    make_state_metric [rec0] 2019 2019 "Fatalities" = .error "Unknown metric" ∧
    metricVal "Fatalities" rec0 = 1 :=
  invalid_metric_amended [rec0] 2019 2019 "Fatalities" rec0 (by decide)

/-! ### C2: the choropleth blanks but does not refilter -/

/-- A lookup through the blanking map of line 200 is transparent for a
selected state: only unselected keys are blanked. -/
theorem lookup_map_blank (picked : List String) (s : String) (hs : s ∈ picked)
    (l : List (String × Option Int)) :
    (l.map (fun p => if picked.contains p.1 then p else (p.1, none))).lookup s
      = l.lookup s := by
  induction l with
  | nil => rfl
  | cons p ps ih =>
    obtain ⟨k, v⟩ := p
    rw [List.map_cons]
    by_cases hc : picked.contains k = true
    · rw [if_pos hc]
      simp only [List.lookup_cons]
      cases hbe : s == k
      · simp only [hbe]; exact ih
      · simp only [hbe]
    · have hsk : s ≠ k := by
        intro he
        subst he
        exact hc (List.elem_eq_true_of_mem hs)
      have hne : (s == k) = false := beq_eq_false_iff_ne.mpr hsk
      rw [if_neg hc]
      simp only [List.lookup_cons, hne]
      exact ih

/-- C2: the totals behind the choropleth are computed from the full record
set filtered only by year range; selecting a state subset only blanks the
unselected states afterwards, so every selected state shows the same total
as with no selection at all. -/
theorem choropleth_selection_independent (records : List Record)
    (picked : List String) (y0 y1 : Int) (metric : String) (s : String)
    (hs : s ∈ picked) (t t' : List (String × Option Int))
    (ht : choroplethTable records picked y0 y1 metric = .ok t)
    (ht' : choroplethTable records [] y0 y1 metric = .ok t') :
    t.lookup s = t'.lookup s := by
  cases hm : make_state_metric records y0 y1 metric with
  | error e =>
    rw [choroplethTable, hm] at ht
    exact Except.noConfusion ht
  | ok mt =>
    rw [choroplethTable, hm] at ht
    rw [choroplethTable, hm] at ht'
    injection ht with ht
    injection ht' with ht'
    subst ht ht'
    simp only [List.isEmpty_nil, if_true]
    by_cases hp : picked.isEmpty = true
    · rw [if_pos hp]
    · rw [if_neg hp]
      exact lookup_map_blank picked s hs _

/-- Witness for C2: with CA selected, CA's choropleth value equals its
value with no selection on the §8 example records. -/
theorem choropleth_selection_independent_witness :
    ∃ t t', choroplethTable [rec0, rec1, rec2] ["CA"] 2019 2020 "Killed" = .ok t ∧
      choroplethTable [rec0, rec1, rec2] [] 2019 2020 "Killed" = .ok t' ∧
      t.lookup "CA" = t'.lookup "CA" := by
  refine ⟨_, _, rfl, rfl, ?_⟩
  exact choropleth_selection_independent [rec0, rec1, rec2] ["CA"] 2019 2020
    "Killed" "CA" (by decide) _ _ rfl rfl

/-! ### C6: the Top-N aggregator -/

/-- Inserting into a descending-sorted list adds one element. -/
theorem length_insertDesc (p : String × Int) (l : List (String × Int)) :
    (insertDesc p l).length = l.length + 1 := by
  induction l with
  | nil => rfl
  | cons q qs ih =>
    simp only [insertDesc]
    split <;> simp [ih]

/-- Descending sort preserves length. -/
theorem length_sortDesc (l : List (String × Int)) :
    (sortDesc l).length = l.length := by
  induction l with
  | nil => rfl
  | cons p ps ih => simp [sortDesc, length_insertDesc, ih]

/-- Membership through `insertDesc`. -/
theorem mem_insertDesc (x p : String × Int) (l : List (String × Int)) :
    x ∈ insertDesc p l ↔ x = p ∨ x ∈ l := by
  induction l with
  | nil => simp [insertDesc]
  | cons q qs ih =>
    simp only [insertDesc]
    split
    · simp
    · simp only [List.mem_cons, ih]
      tauto

/-- Membership through `sortDesc`. -/
theorem mem_sortDesc (x : String × Int) (l : List (String × Int)) :
    x ∈ sortDesc l ↔ x ∈ l := by
  induction l with
  | nil => simp [sortDesc]
  | cons p ps ih => simp [sortDesc, mem_insertDesc, ih]

/-- Inserting into a list sorted by non-increasing total keeps it
sorted. -/
theorem sorted_insertDesc (p : String × Int) (l : List (String × Int))
    (h : l.Pairwise (fun a b => b.2 ≤ a.2)) :
    (insertDesc p l).Pairwise (fun a b => b.2 ≤ a.2) := by
  induction l with
  | nil => simp [insertDesc]
  | cons q qs ih =>
    rw [List.pairwise_cons] at h
    obtain ⟨hq, hqs⟩ := h
    simp only [insertDesc]
    split
    · rename_i hle
      refine List.Pairwise.cons ?_ (List.Pairwise.cons hq hqs)
      intro x hx
      rcases List.mem_cons.mp hx with hxq | hxqs
      · subst hxq; exact hle
      · exact le_trans (hq x hxqs) hle
    · rename_i hgt
      refine List.Pairwise.cons ?_ (ih hqs)
      intro x hx
      rcases (mem_insertDesc x p qs).mp hx with hxp | hxqs
      · subst hxp; omega
      · exact hq x hxqs

/-- `sortDesc` sorts by non-increasing total. -/
theorem sorted_sortDesc (l : List (String × Int)) :
    (sortDesc l).Pairwise (fun a b => b.2 ≤ a.2) := by
  induction l with
  | nil => simp [sortDesc]
  | cons p ps ih => exact sorted_insertDesc p (sortDesc ps) ih

/-- C6: the Top-N aggregator filters by year range and (when non-empty)
by the state subset before grouping, groups by full state name, and
returns min(n, number of distinct groups) pairs sorted non-increasing by
total, every returned name being the state name of a contributing filtered
record. -/
theorem topStates_spec (records : List Record) (y0 y1 : Int)
    (picked : List String) (metric : String) (n : Nat) :
    (topStates records y0 y1 picked metric n).length =
      min n (((filterStates (filterYear records y0 y1) picked).filterMap
        (fun r => r.state_name)).dedup).length ∧
    (topStates records y0 y1 picked metric n).Pairwise (fun a b => b.2 ≤ a.2) ∧
    (∀ p ∈ topStates records y0 y1 picked metric n,
      ∃ r ∈ filterStates (filterYear records y0 y1) picked,
        r.state_name = some p.1) := by
  refine ⟨?_, ?_, ?_⟩
  · simp [topStates, List.length_take, length_sortDesc]
  · exact List.Pairwise.sublist (List.take_sublist _ _) (sorted_sortDesc _)
  · intro p hp
    have hsorted : p ∈ sortDesc (((filterStates (filterYear records y0 y1)
        picked).filterMap (fun r => r.state_name)).dedup.map (fun nm =>
          (nm, (((filterStates (filterYear records y0 y1) picked).filter
            (fun r => r.state_name = some nm)).map (metricVal metric)).sum))) :=
      List.take_subset _ _ hp
    rw [mem_sortDesc, List.mem_map] at hsorted
    obtain ⟨nm, hnm, hpe⟩ := hsorted
    have hnm' : nm ∈ (filterStates (filterYear records y0 y1)
        picked).filterMap (fun r => r.state_name) := List.mem_dedup.mp hnm
    rw [List.mem_filterMap] at hnm'
    obtain ⟨r, hr, hrn⟩ := hnm'
    exact ⟨r, hr, by rw [hrn, ← hpe]⟩

/-- Witness for C6 on the §8 Top-N example: top-1 by incidents is
California. -/
theorem topStates_spec_witness :
    ∃ r ∈ filterStates (filterYear [rec0, rec1, rec2] 2000 2025) [],
      r.state_name = some "California" :=
  (topStates_spec [rec0, rec1, rec2] 2000 2025 [] "Incidents" 1).2.2
    ("California", 2) (by decide)

/-! ### C3: the Weekday×Hour aggregator -/

/-- Peeling one record off a heatmap cell. -/
theorem heatCell_cons (a : Record) (l : List Record) (metric : String)
    (d : Weekday) (h : Int) :
    heatCell (a :: l) metric d h =
      (if a.weekday = some d ∧ a.hour24 = some h then metricVal metric a else 0)
        + heatCell l metric d h := by
  simp only [heatCell, List.filter_cons]
  by_cases hc : a.weekday = some d ∧ a.hour24 = some h
  · have hcond : (decide (a.weekday = some d) && decide (a.hour24 = some h)) = true := by
      simp [hc.1, hc.2]
    rw [if_pos hcond, if_pos hc, List.map_cons, List.sum_cons]
  · have hcond : ¬((decide (a.weekday = some d) && decide (a.hour24 = some h)) = true) := by
      simp only [Bool.and_eq_true, decide_eq_true_eq]
      exact hc
    rw [if_neg hcond, if_neg hc, zero_add]

/-- An in-range hour hits exactly one of the 24 columns. -/
theorem hourSum (h0 : Int) (hge : 0 ≤ h0) (hlt : h0 < 24) :
    ((List.range 24).map (fun (h : Nat) => if h0 = (h : Int) then (1 : Int) else 0)).sum = 1 := by
  interval_cases h0 <;> decide

/-- A single record contributes 1 to the whole `Incidents` matrix when
both `weekday` and `hour24` are present (the hour being in range), and 0
otherwise. -/
theorem heat_sum_indicator (a : Record)
    (ha : ∀ h : Int, a.hour24 = some h → 0 ≤ h ∧ h < 24) :
    (weekdayOrder.map (fun d => ((List.range 24).map (fun (h : Nat) =>
        if a.weekday = some d ∧ a.hour24 = some (h : Int) then (1 : Int) else 0)).sum)).sum
      = if a.weekday.isSome && a.hour24.isSome then 1 else 0 := by
  cases hw : a.weekday with
  | none => simp [hw]
  | some w =>
    cases hh : a.hour24 with
    | none => simp [hw, hh]
    | some h0 =>
      obtain ⟨hge, hlt⟩ := ha h0 hh
      cases w <;>
        simpa [hw, hh, weekdayOrder] using hourSum h0 hge hlt

/-- Total of the `Incidents` matrix: each record with both fields present
counts once. -/
theorem heat_total (records : List Record) :
    (∀ r ∈ records, ∀ h : Int, r.hour24 = some h → 0 ≤ h ∧ h < 24) →
    ((weekdayHourHeatmap records "Incidents").map List.sum).sum
      = (records.countP (fun r => r.weekday.isSome && r.hour24.isSome) : Int) := by
  induction records with
  | nil => intro _; rfl
  | cons a l ih =>
    intro hre
    have hal : ∀ r ∈ l, ∀ h : Int, r.hour24 = some h → 0 ≤ h ∧ h < 24 :=
      fun r hr => hre r (List.mem_cons_of_mem a hr)
    have ha := hre a (List.mem_cons_self a l)
    have hmv : metricVal "Incidents" a = 1 := rfl
    simp only [weekdayHourHeatmap, List.map_map, Function.comp_def] at ih ⊢
    simp only [heatCell_cons, hmv, sum_map_add]
    rw [heat_sum_indicator a ha, ih hal, List.countP_cons]
    cases hb : (a.weekday.isSome && a.hour24.isSome) <;> (simp [hb]; try omega)

/-- C3: the heatmap is always a dense 7×24 matrix (rows Mon..Sun, columns
0..23 by construction), absent (weekday, hour) combinations are 0, the
empty input yields the all-zero matrix, and for metric `Incidents` the
168 cells sum to the number of records with both `weekday` and `hour24`
present (hours being in the data model's 0..23 range). -/
theorem weekday_hour_heatmap_spec (records : List Record) (metric : String) :
    (weekdayHourHeatmap records metric).length = 7 ∧
    (∀ row ∈ weekdayHourHeatmap records metric, row.length = 24) ∧
    (∀ (d : Weekday) (h : Int),
      (∀ r ∈ records, ¬(r.weekday = some d ∧ r.hour24 = some h)) →
      heatCell records metric d h = 0) ∧
    weekdayHourHeatmap [] metric =
      weekdayOrder.map (fun _ => (List.range 24).map (fun (_ : Nat) => (0 : Int))) ∧
    ((∀ r ∈ records, ∀ h : Int, r.hour24 = some h → 0 ≤ h ∧ h < 24) →
      ((weekdayHourHeatmap records "Incidents").map List.sum).sum
        = (records.countP (fun r => r.weekday.isSome && r.hour24.isSome) : Int)) := by
  refine ⟨?_, ?_, ?_, ?_, heat_total records⟩
  · simp [weekdayHourHeatmap, weekdayOrder]
  · intro row hrow
    simp only [weekdayHourHeatmap, List.mem_map] at hrow
    obtain ⟨d, _, hrw⟩ := hrow
    rw [← hrw]
    simp [List.length_map, List.length_range]
  · intro d h hno
    have hfil : records.filter (fun r =>
        decide (r.weekday = some d) && decide (r.hour24 = some h)) = [] := by
      apply List.filter_eq_nil_iff.mpr
      intro r hr
      simpa using hno r hr
    simp [heatCell, hfil]
  · rfl

/-- Witness for C3 on the §8 example filtered to 2019: a single nonzero
cell at (Mon, 5) with value 2, so the cells sum to 2 = the number of
records with both fields present. -/
theorem weekday_hour_heatmap_spec_witness :
    heatCell (filterYear [rec0, rec1, rec2] 2019 2019) "Incidents" Weekday.wed 3 = 0 ∧
    ((weekdayHourHeatmap (filterYear [rec0, rec1, rec2] 2019 2019)
        "Incidents").map List.sum).sum = 2 := by
  have h := weekday_hour_heatmap_spec (filterYear [rec0, rec1, rec2] 2019 2019) "Incidents"
  refine ⟨h.2.2.1 Weekday.wed 3 (by decide), ?_⟩
  rw [h.2.2.2.2 (by decide)]
  decide
